import Mathlib

/-!
Shallow embedding of the replicated-state consensus engine of the mp_mtg
repository (src/client/src/p2p/GameStateManager.js), together with theorems
checking the specification's claims about it.

Modelling conventions:
* Opaque string identifiers (player ids, card ids, action ids, peer ids,
  counter-type names) are modelled as `Nat`.
* JavaScript objects used as maps (`Map`, counter objects) are association
  lists updated in place at the first occurrence of a key, which matches the
  JS `Map.set`/property-assignment semantics (insertion order preserved,
  existing key overwritten).
* The external calls a single synchronously-executed event handler makes —
  `Date.now()`, `uuidv4()`, `Math.random()` — are supplied by an explicit
  environment `Env`; all `Date.now()` calls within one handler return the
  same value `Env.now`, matching the millisecond clock of a synchronous
  JS event handler.
* Network effects (`p2pManager.broadcast`) are returned as an explicit list
  of messages instead of being performed.
-/

namespace MpMtg

/-- The five card zones of a player (`library`, `hand`, `battlefield`,
`graveyard`, `exile`), as accessed by name in `processMoveCard` /
`processMoveToLibrary`. -/
inductive Zone
  | library
  | hand
  | battlefield
  | graveyard
  | exile
deriving DecidableEq, Repr

/-- A card: an opaque record with a stable `id`; battlefield cards may carry
`counters` (a JS object mapping counter type to number, here an association
list) and tokens carry `isToken`. -/
structure Card where
  id : Nat
  counters : List (Nat × Int) := []
  isToken : Bool := false
  tapped : Bool := false
deriving DecidableEq, Repr

/-- Per-player state as built by `initializeGameState`. -/
structure PlayerState where
  id : Nat
  name : String := ""
  life : Int := 20
  library : List Card := []
  hand : List Card := []
  battlefield : List Card := []
  graveyard : List Card := []
  exile : List Card := []
  commander : Option Card := none
  isCurrentPlayer : Bool := false
deriving DecidableEq, Repr

/-- The replicated game state (the `config` blob is opaque and unused by the
state-transition logic, so it is not modelled). -/
structure GameState where
  id : Nat
  version : Nat
  timestamp : Nat
  activePlayer : Nat
  phase : String
  turn : Nat
  players : List PlayerState
  stack : List Card := []
deriving DecidableEq, Repr

/-- The payload of an action, one constructor per `action.type` string of
`processAction`'s dispatch; `unknown` stands for any unrecognized type tag
(the `default:` branch). JS-level payload defaults (`count = 1`,
`targetZone = 'battlefield'`, position `'top'`) are resolved by the caller. -/
inductive ActionPayload
  | drawCard (playerId : Nat) (count : Nat)
  | playCard (playerId cardId : Nat) (targetZone : Zone)
  | moveCard (playerId cardId : Nat) (sourceZone targetZone : Zone)
  | updateLife (playerId : Nat) (delta : Int)
  | changePhase (phase : String)
  | nextTurn
  | addCounter (playerId cardId counterType : Nat) (count : Int)
  | removeCounter (playerId cardId counterType : Nat) (count : Int)
  | createToken (playerId : Nat) (tokenData : Card)
  | shuffleLibrary (playerId : Nat)
  | moveToLibrary (playerId cardId : Nat) (sourceZone : Zone) (toBottom : Bool)
  | unknown (tag : String)
deriving DecidableEq, Repr

/-- An action after `applyAction` has filled in the `id`, `timestamp` and
`sourcePlayer` defaults. -/
structure Action where
  id : Nat
  payload : ActionPayload
  sourcePlayer : Nat
  timestamp : Nat
deriving DecidableEq, Repr

/-- The external inputs of one synchronously-executed event handler:
the millisecond clock (`Date.now()`), the fresh identifier minted by
`uuidv4()`, and the random source consulted by `Math.random()` (indexed by
the Fisher–Yates loop variable). -/
structure Env where
  now : Nat
  uuid : Nat
  rand : Nat → Nat

/-- First-occurrence lookup in an association list (JS `Map.get` /
object-property read). -/
def mapGet {β : Type} (k : Nat) : List (Nat × β) → Option β
  | [] => none
  | (k', v) :: rest => if k' = k then some v else mapGet k rest

/-- JS `Map.set` / object-property write: overwrite the first binding of the
key, else append, preserving insertion order. -/
def mapSet {β : Type} (k : Nat) (v : β) : List (Nat × β) → List (Nat × β)
  | [] => [(k, v)]
  | (k', v') :: rest => if k' = k then (k, v) :: rest else (k', v') :: mapSet k v rest

/-- JS `Map.delete`. -/
def mapDelete {β : Type} (k : Nat) (l : List (Nat × β)) : List (Nat × β) :=
  l.filter (fun p => p.1 ≠ k)

/-- `array.find(p)` followed by an in-place mutation of the found element
(the pervasive JS idiom of the handlers): rewrite the first element
satisfying `p` through `f`, failing if no element matches or `f` fails. -/
def modifyFirst {α : Type} (p : α → Bool) (f : α → Option α) : List α → Option (List α)
  | [] => none
  | x :: xs =>
    if p x then (f x).map (· :: xs)
    else (modifyFirst p f xs).map (x :: ·)

/-- `array.findIndex(p)` followed by `splice(index, 1)`: remove the first
element satisfying `p`, returning it and the remainder. -/
def removeFirst {α : Type} (p : α → Bool) : List α → Option (α × List α)
  | [] => none
  | x :: xs =>
    if p x then some (x, xs)
    else (removeFirst p xs).map (fun r => (r.1, x :: r.2))

/-- Read a player's zone array, as `player[zoneName]` does. -/
def getZone : Zone → PlayerState → List Card
  | .library, p => p.library
  | .hand, p => p.hand
  | .battlefield, p => p.battlefield
  | .graveyard, p => p.graveyard
  | .exile, p => p.exile

/-- Replace a player's zone array. -/
def setZone : Zone → PlayerState → List Card → PlayerState
  | .library, p, cs => { p with library := cs }
  | .hand, p, cs => { p with hand := cs }
  | .battlefield, p, cs => { p with battlefield := cs }
  | .graveyard, p, cs => { p with graveyard := cs }
  | .exile, p, cs => { p with exile := cs }

/-- `state.players.find(p => p.id === playerId)` followed by in-place
mutation of the found player; fails if the player is missing or the inner
mutation fails. -/
def modifyPlayer (st : GameState) (playerId : Nat)
    (f : PlayerState → Option PlayerState) : Option GameState :=
  (modifyFirst (fun q => q.id == playerId) f st.players).map
    (fun ps => { st with players := ps })

/-- `processDrawCard`: fails if the player is missing or the library is
shorter than `count`; otherwise splices `count` cards off the front of the
library and pushes them onto the hand. -/
def processDrawCard (st : GameState) (playerId : Nat) (count : Nat) : Option GameState :=
  modifyPlayer st playerId (fun pl =>
    if pl.library.length < count then none
    else some { pl with
      library := pl.library.drop count,
      hand := pl.hand ++ pl.library.take count })

/-- `processPlayCard`: remove the card from the hand, append it to the
target zone; fails if the card is not in hand or the target zone is not
battlefield/graveyard/exile (the `default:` branch of the zone switch). -/
def processPlayCard (st : GameState) (playerId cardId : Nat) (targetZone : Zone) :
    Option GameState :=
  modifyPlayer st playerId (fun pl =>
    match removeFirst (fun c => c.id == cardId) pl.hand with
    | none => none
    | some (card, hand') =>
      let pl' := { pl with hand := hand' }
      match targetZone with
      | .battlefield => some { pl' with battlefield := pl'.battlefield ++ [card] }
      | .graveyard => some { pl' with graveyard := pl'.graveyard ++ [card] }
      | .exile => some { pl' with exile := pl'.exile ++ [card] }
      | _ => none)

/-- `processMoveCard`: splice the card out of the source zone and push it
onto the target zone (reading the target only after the removal, which
reproduces the JS aliasing when source and target coincide). -/
def processMoveCard (st : GameState) (playerId cardId : Nat)
    (sourceZone targetZone : Zone) : Option GameState :=
  modifyPlayer st playerId (fun pl =>
    match removeFirst (fun c => c.id == cardId) (getZone sourceZone pl) with
    | none => none
    | some (card, src') =>
      let pl1 := setZone sourceZone pl src'
      some (setZone targetZone pl1 (getZone targetZone pl1 ++ [card])))

/-- `processUpdateLife`: `player.life += delta`, no bounds. -/
def processUpdateLife (st : GameState) (playerId : Nat) (delta : Int) : Option GameState :=
  modifyPlayer st playerId (fun pl => some { pl with life := pl.life + delta })

/-- The `validPhases` array of `processChangePhase`. -/
def validPhases : List String :=
  ["untap", "upkeep", "draw", "main1", "combat", "main2", "end"]

/-- `processChangePhase`. -/
def processChangePhase (st : GameState) (phase : String) : Option GameState :=
  if validPhases.contains phase then some { st with phase := phase } else none

/-- `processNextTurn`: `findIndex` yields `-1` when the active player is
unknown, and `(-1 + 1) % length` wraps to `0`; an empty player list makes
the subsequent element access throw (caught by `processAction`), hence
failure. -/
def processNextTurn (st : GameState) : Option GameState :=
  if st.players.length = 0 then none
  else
    let ci : Int := match st.players.findIdx? (fun p => p.id == st.activePlayer) with
      | some i => (i : Int)
      | none => -1
    let ni := ((ci + 1) % (st.players.length : Int)).toNat
    match st.players.get? ni with
    | none => none
    | some np => some { st with activePlayer := np.id, phase := "untap", turn := st.turn + 1 }

/-- `processAddCounter`: on the first matching battlefield card, initialize
the counter entry to 0 if absent, then add `count`. -/
def processAddCounter (st : GameState) (playerId cardId counterType : Nat)
    (count : Int) : Option GameState :=
  modifyPlayer st playerId (fun pl =>
    (modifyFirst (fun c => c.id == cardId)
        (fun card =>
          let cur := (mapGet counterType card.counters).getD 0
          some { card with counters := mapSet counterType (cur + count) card.counters })
        pl.battlefield).map
      (fun bf => { pl with battlefield := bf }))

/-- `processRemoveCounter`: the guard `!card || !card.counters ||
!card.counters[counterType]` fails when the card is missing from the
battlefield, or when the counter entry is absent or zero (JS falsiness of
`0`); otherwise sets the entry to `max 0 (value - count)`. -/
def processRemoveCounter (st : GameState) (playerId cardId counterType : Nat)
    (count : Int) : Option GameState :=
  modifyPlayer st playerId (fun pl =>
    (modifyFirst (fun c => c.id == cardId)
        (fun card =>
          match (mapGet counterType card.counters : Option Int) with
          | none => none
          | some v =>
            if v = 0 then none
            else some { card with
              counters := mapSet counterType (max (0 : Int) (v - count)) card.counters })
        pl.battlefield).map
      (fun bf => { pl with battlefield := bf }))

/-- `processCreateToken`: mint a token from `tokenData` with a fresh
`uuidv4()` id and `isToken: true`, pushed onto the battlefield. -/
def processCreateToken (env : Env) (st : GameState) (playerId : Nat)
    (tokenData : Card) : Option GameState :=
  modifyPlayer st playerId (fun pl =>
    some { pl with battlefield := pl.battlefield ++ [{ tokenData with id := env.uuid, isToken := true }] })

/-- Swap two positions of a list (in-bounds positions only; out-of-bounds
indices never arise in the shuffle loop). -/
def listSwap (l : List Card) (i j : Nat) : List Card :=
  match l.get? i, l.get? j with
  | some a, some b => (l.set i b).set j a
  | _, _ => l

/-- The Fisher–Yates loop of `processShuffleLibrary`: for `i` from
`length - 1` down to `1`, swap index `i` with `j = Math.floor(Math.random()
* (i + 1))`; the random draw at loop index `i` is `rand i`, reduced modulo
`i + 1` exactly as the JS expression keeps `j` in `[0, i]`. -/
def fisherYates (rand : Nat → Nat) : Nat → List Card → List Card
  | 0, l => l
  | i + 1, l => fisherYates rand i (listSwap l (i + 1) (rand (i + 1) % (i + 2)))

/-- `processShuffleLibrary`. -/
def processShuffleLibrary (env : Env) (st : GameState) (playerId : Nat) : Option GameState :=
  modifyPlayer st playerId (fun pl =>
    some { pl with library := fisherYates env.rand (pl.library.length - 1) pl.library })

/-- `processMoveToLibrary`: splice the card out of the source zone, then
`push` (bottom) or `unshift` (default: top) onto the library. -/
def processMoveToLibrary (st : GameState) (playerId cardId : Nat)
    (sourceZone : Zone) (toBottom : Bool) : Option GameState :=
  modifyPlayer st playerId (fun pl =>
    match removeFirst (fun c => c.id == cardId) (getZone sourceZone pl) with
    | none => none
    | some (card, src') =>
      let pl1 := setZone sourceZone pl src'
      some (setZone .library pl1
        (if toBottom then getZone .library pl1 ++ [card]
         else card :: getZone .library pl1)))

/-- The `switch (action.type)` dispatch of `processAction`; the `default:`
branch (unknown type) fails with the state unchanged. -/
def dispatchAction (env : Env) (st : GameState) (a : Action) : Option GameState :=
  match a.payload with
  | .drawCard pid n => processDrawCard st pid n
  | .playCard pid cid tz => processPlayCard st pid cid tz
  | .moveCard pid cid sz tz => processMoveCard st pid cid sz tz
  | .updateLife pid d => processUpdateLife st pid d
  | .changePhase ph => processChangePhase st ph
  | .nextTurn => processNextTurn st
  | .addCounter pid cid ct n => processAddCounter st pid cid ct n
  | .removeCounter pid cid ct n => processRemoveCounter st pid cid ct n
  | .createToken pid td => processCreateToken env st pid td
  | .shuffleLibrary pid => processShuffleLibrary env st pid
  | .moveToLibrary pid cid sz b => processMoveToLibrary st pid cid sz b
  | .unknown _ => none

/-- The computational core of `processAction`: clone the current state, bump
`version`, refresh `timestamp` from the clock, then run the handler for the
action's type; `none` is the `return false` of every failure path. -/
def processActionPure (env : Env) (gs : GameState) (a : Action) : Option GameState :=
  dispatchAction env { gs with version := gs.version + 1, timestamp := env.now } a

/-- One entry of `stateHistory`: a prior state together with the
`Date.now()` of the moment it was pushed. -/
structure HistEntry where
  state : GameState
  timestamp : Nat
deriving DecidableEq, Repr

/-- One entry of `actionLog`: the action's fields plus `appliedAt`. -/
structure LogEntry where
  action : Action
  appliedAt : Nat
deriving DecidableEq, Repr

/-- One entry of `pendingActions`: the action, the vote map
(peer id ↦ approved) and the creation timestamp used by the TTL sweep. -/
structure PendingEntry where
  action : Action
  votes : List (Nat × Bool)
  timestamp : Nat
deriving DecidableEq, Repr

/-- A message handed to `p2pManager.broadcast`, recorded instead of sent. -/
inductive Msg
  | gameAction (a : Action)
  | actionVote (actionId : Nat) (approved : Bool)
  | gameStateMsg (s : GameState)
deriving DecidableEq, Repr

/-- The mutable fields of a `GameStateManager` instance, plus the two facts
it reads from its `p2pManager` (`isConnected()` and
`getConnectedPeers().length`), which are externally owned and constant
during one event. -/
structure Manager where
  userId : Nat
  gameState : Option GameState := none
  pendingActions : List (Nat × PendingEntry) := []
  stateHistory : List HistEntry := []
  actionLog : List LogEntry := []
  connected : Bool := true
  connectedPeers : Nat := 0
deriving DecidableEq, Repr

/-- `setGameState`: push the previous state (if any) onto the history with
the current clock value, trim the history to 20 entries, install the new
state, and — when connected — broadcast it (`broadcastGameState`). Listener
notification has no effect on the manager's state and is not modelled. -/
def setGameState (env : Env) (m : Manager) (newState : GameState) : Manager × List Msg :=
  let hist := match m.gameState with
    | none => m.stateHistory
    | some old =>
      let h := m.stateHistory ++ [⟨old, env.now⟩]
      if h.length > 20 then h.tail else h
  ({ m with gameState := some newState, stateHistory := hist },
   if m.connected then [Msg.gameStateMsg newState] else [])

/-- `processAction` at the manager level: with no state initialized every
handler throws on the cloned `null` and the `catch` returns `false`;
otherwise run the pure core and, on success, commit the produced state via
`setGameState` (each handler's final `this.setGameState(state)`). -/
def processAction (env : Env) (m : Manager) (a : Action) : Manager × List Msg × Bool :=
  match m.gameState with
  | none => (m, [], false)
  | some gs =>
    match processActionPure env gs a with
    | none => (m, [], false)
    | some st =>
      let r := setGameState env m st
      (r.1, r.2, true)

/-- `cleanupPendingActions`: drop every pending entry older than 10 seconds
(`now - timestamp > 10000`). -/
def cleanupPendingActions (env : Env) (m : Manager) : Manager :=
  { m with pendingActions :=
      m.pendingActions.filter (fun p => ¬ env.now - p.2.timestamp > 10000) }

/-- The replay loop of `rollbackAction`: run every remaining log entry, in
order, through `processAction` (whether or not it succeeds), accumulating
the broadcasts. `processAction` never modifies `actionLog`, so iterating
over a pre-read list matches the JS loop over the live array. -/
def replayFrom (env : Env) : Manager → List LogEntry → Manager × List Msg
  | m, [] => (m, [])
  | m, e :: es =>
    let r := processAction env m e.action
    let rest := replayFrom env r.1 es
    (rest.1, r.2.1 ++ rest.2)

/-- `rollbackAction`: find the action in the log; compute
`prevStateIndex = stateHistory.findIndex(h => h.timestamp > appliedAt) - 1`;
when that index is at least 0, restore that history entry as current state,
splice the action out of the log, and replay every later log entry. A
`findIndex` result of `-1` or `0` makes `prevStateIndex` negative and the
whole rollback is silently skipped. -/
def rollbackAction (env : Env) (m : Manager) (actionId : Nat) : Manager × List Msg :=
  match m.actionLog.findIdx? (fun e => e.action.id == actionId) with
  | none => (m, [])
  | some k =>
    let appliedAt := ((m.actionLog.get? k).map (·.appliedAt)).getD 0
    match m.stateHistory.findIdx? (fun h => h.timestamp > appliedAt) with
    | none => (m, [])
    | some 0 => (m, [])
    | some (i + 1) =>
      match m.stateHistory.get? i with
      | none => (m, [])
      | some prev =>
        let r0 := setGameState env m prev.state
        let m2 := { r0.1 with actionLog := r0.1.actionLog.eraseIdx k }
        let r := replayFrom env m2 (m2.actionLog.drop k)
        (r.1, r0.2 ++ r.2)

/-- `checkActionConsensus`: recompute the tally and, once
`totalVotes >= (connectedPeers + 1) * 0.5` (written here as
`2 * totalVotes ≥ connectedPeers + 1`, which is the same comparison — the
float multiplication by 0.5 is exact), either drop the approved action from
the pending set or roll it back and drop it; afterwards (in every case in
which the entry was found) run the TTL sweep. -/
def checkActionConsensus (env : Env) (m : Manager) (actionId : Nat) : Manager × List Msg :=
  match mapGet actionId m.pendingActions with
  | none => (m, [])
  | some pa =>
    let totalVotes := pa.votes.length
    let approvedVotes := (pa.votes.filter (fun v => v.2)).length
    let rejectedVotes := totalVotes - approvedVotes
    let totalPlayers := m.connectedPeers + 1
    let r :=
      if 2 * totalVotes ≥ totalPlayers then
        if approvedVotes > rejectedVotes then
          ({ m with pendingActions := mapDelete actionId m.pendingActions },
           ([] : List Msg))
        else
          let rb := rollbackAction env m actionId
          ({ rb.1 with pendingActions := mapDelete actionId rb.1.pendingActions },
           rb.2)
      else (m, [])
    (cleanupPendingActions env r.1, r.2)

/-- `addVoteForAction`: record the vote in the pending entry's vote map
(no-op if the action is not pending), then re-check consensus. -/
def addVoteForAction (env : Env) (m : Manager) (actionId peerId : Nat)
    (approved : Bool) : Manager × List Msg :=
  match mapGet actionId m.pendingActions with
  | none => (m, [])
  | some pa =>
    let pa1 := { pa with votes := mapSet peerId approved pa.votes }
    let m1 := { m with pendingActions := mapSet actionId pa1 m.pendingActions }
    checkActionConsensus env m1 actionId

/-- `handleActionVote`. -/
def handleActionVote (env : Env) (m : Manager) (actionId fromPeerId : Nat)
    (approved : Bool) : Manager × List Msg :=
  addVoteForAction env m actionId fromPeerId approved

/-- `addPendingAction`: register the action with an empty vote map and the
current clock, then record our own approving vote (which itself re-checks
consensus). The `setTimeout(…, 500)` re-check is a separate later event and
is not part of this handler. -/
def addPendingAction (env : Env) (m : Manager) (a : Action) : Manager × List Msg :=
  let m1 := { m with pendingActions := mapSet a.id ⟨a, [], env.now⟩ m.pendingActions }
  addVoteForAction env m1 a.id m.userId true

/-- An action as submitted by the caller of `applyAction`, before the
`id`/`timestamp`/`sourcePlayer` defaults are filled in. -/
structure ActionReq where
  id : Option Nat := none
  payload : ActionPayload
  sourcePlayer : Option Nat := none
  timestamp : Option Nat := none
deriving DecidableEq, Repr

/-- The defaulting step of `applyAction`: `id: action.id || uuidv4()`,
`timestamp: action.timestamp || Date.now()`,
`sourcePlayer: action.sourcePlayer || this.userId` (ids are opaque and
non-null here, so `||` is Option defaulting). -/
def resolveAction (env : Env) (userId : Nat) (req : ActionReq) : Action :=
  { id := req.id.getD env.uuid
    payload := req.payload
    sourcePlayer := req.sourcePlayer.getD userId
    timestamp := req.timestamp.getD env.now }

/-- `applyAction`: fail outright with no state — otherwise log the action
(before any validation), process it locally, and only on success broadcast
the `game-action` message and register the pending entry with our own
approving vote. -/
def applyAction (env : Env) (m : Manager) (req : ActionReq) : Manager × List Msg × Bool :=
  match m.gameState with
  | none => (m, [], false)
  | some _ =>
    let a := resolveAction env m.userId req
    let m1 := { m with actionLog := m.actionLog ++ [⟨a, env.now⟩] }
    let r := processAction env m1 a
    if r.2.2 then
      let rp := addPendingAction env r.1 a
      (rp.1, r.2.1 ++ [Msg.gameAction a] ++ rp.2, true)
    else
      (r.1, r.2.1, false)

/-- `handlePeerAction`: a duplicate of a *pending* action id is treated as
an implicit approving vote from the sender; otherwise the action is run
through the processor, and on success registered as pending, voted for, and
answered with an approving `action-vote` broadcast — on failure answered
with a rejecting one. -/
def handlePeerAction (env : Env) (m : Manager) (a : Action) (fromPeerId : Nat) :
    Manager × List Msg :=
  if (mapGet a.id m.pendingActions).isSome then
    addVoteForAction env m a.id fromPeerId true
  else
    let r := processAction env m a
    if r.2.2 then
      let rp := addPendingAction env r.1 a
      let rv := addVoteForAction env rp.1 a.id fromPeerId true
      (rv.1, r.2.1 ++ rp.2 ++ rv.2 ++ [Msg.actionVote a.id true])
    else
      (r.1, r.2.1 ++ [Msg.actionVote a.id false])

/-- `handleGameStateUpdate`: accept a full state from a peer only when no
local state exists or the received `version` is strictly greater. -/
def handleGameStateUpdate (env : Env) (m : Manager) (s : GameState) : Manager × List Msg :=
  match m.gameState with
  | none => setGameState env m s
  | some gs => if s.version > gs.version then setGameState env m s else (m, [])

/-- One roster entry handed to `initializeGameState`. -/
structure RosterEntry where
  id : Nat
  name : String := ""
  deck : Option (List Card) := none
  commander : Option Card := none
deriving DecidableEq, Repr

/-- `initializeGameState`: build the initial state (version 1, turn 1,
phase `main1`, first roster entry active; every player at 20 life with the
supplied deck as library and all other zones empty), install it, and
broadcast it (`broadcastGameState` sends unconditionally; `setGameState`
already broadcast once when connected). On an empty roster `players[0].id`
throws, modelled as `none`. -/
def initializeGameState (env : Env) (m : Manager) (players : List RosterEntry) :
    Option (Manager × List Msg × GameState) :=
  match players with
  | [] => none
  | p0 :: _ =>
    let initialState : GameState :=
      { id := env.uuid
        version := 1
        timestamp := env.now
        activePlayer := p0.id
        phase := "main1"
        turn := 1
        players := players.map (fun p =>
          { id := p.id
            name := p.name
            life := 20
            library := p.deck.getD []
            hand := []
            battlefield := []
            graveyard := []
            exile := []
            commander := p.commander
            isCurrentPlayer := p.id == m.userId })
        stack := [] }
    let r := setGameState env m initialState
    some (r.1, r.2 ++ [Msg.gameStateMsg initialState], initialState)

/-- The first card with the given id on the battlefield of the first player
with the given id — the lookup both `processAddCounter` and
`processRemoveCounter` perform, and the precondition named by the spec's
handler table. -/
def cardOnBattlefield (st : GameState) (playerId cardId : Nat) : Option Card :=
  (st.players.find? (fun p => p.id == playerId)).bind
    (fun p => p.battlefield.find? (fun c => c.id == cardId))

/-- State-level deterministic replay of a log suffix: each entry is run
through the Action Processor, a failing entry leaving the state unchanged —
the `replay(snapshotBefore, subsequentActions)` of the spec, as realized by
the loop in `rollbackAction`. -/
def replay (env : Env) (s : GameState) (entries : List LogEntry) : GameState :=
  entries.foldl (fun st e => (processActionPure env st e.action).getD st) s

/-- The two action types whose handlers consult the environment beyond the
clock: `create-token` mints a `uuidv4()` id and `shuffle-library` draws from
`Math.random()`. -/
def usesEnvRandomness : ActionPayload → Bool
  | .createToken _ _ => true
  | .shuffleLibrary _ => true
  | _ => false

/-- A concrete environment for scenario evaluation: clock reading `t`,
fresh id `90 + t`, constant-zero random source. -/
def mkEnv (t : Nat) : Env := ⟨t, 90 + t, fun _ => 0⟩

/-! Concrete scenario for claim C1: a 3-peer mesh (2 connected peers), game
initialized at time 0, an `update-life +5` action with id 42 applied locally
at time 1, then a rejecting vote from peer 7 at time 2. The two recorded
votes (self-approve, peer-reject) reach consensus with rejections equal to
approvals, so the coordinator enters its rollback path. -/

def c1Roster : List RosterEntry := [{ id := 1 }, { id := 2 }, { id := 3 }]

def c1Start : Manager := { userId := 1, connected := true, connectedPeers := 2 }

def c1AfterInit : Manager :=
  ((initializeGameState (mkEnv 0) c1Start c1Roster).map (·.1)).getD c1Start

def c1Req : ActionReq := { id := some 42, payload := .updateLife 1 5 }

def c1AfterApply : Manager := (applyAction (mkEnv 1) c1AfterInit c1Req).1

def c1Final : Manager := (handleActionVote (mkEnv 2) c1AfterApply 42 7 false).1

/-! Concrete scenario for claim C2: the same `update-life +5` action, id 42,
already applied and committed (no longer pending), then received again from
peer 9. -/

def c2Gs : GameState :=
  { id := 0, version := 2, timestamp := 1, activePlayer := 1, phase := "main1",
    turn := 1, players := [{ id := 1, life := 25 }] }

def c2Act : Action := { id := 42, payload := .updateLife 1 5, sourcePlayer := 1, timestamp := 1 }

def c2Committed : Manager :=
  { userId := 1, gameState := some c2Gs, pendingActions := [],
    connected := true, connectedPeers := 2 }

/-- C2 witness scenario: the same action still pending (self-approval
recorded) on a 5-player mesh, so one more approval does not yet reach the
consensus threshold. -/
def c2Pending : Manager :=
  { userId := 1, gameState := some c2Gs,
    pendingActions := [(42, { action := c2Act, votes := [(1, true)], timestamp := 3 })],
    connected := true, connectedPeers := 4 }

/-- C4 scenario state: one player at 20 life. -/
def c4Gs : GameState :=
  { id := 0, version := 1, timestamp := 0, activePlayer := 1, phase := "main1",
    turn := 1, players := [{ id := 1 }] }

def c4Act : Action := { id := 1, payload := .updateLife 1 (-3), sourcePlayer := 1, timestamp := 0 }

/-- C5 witness scenario: a 2-card library, so drawing 5 fails validation. -/
def c5Gs : GameState :=
  { id := 0, version := 3, timestamp := 0, activePlayer := 1, phase := "main1",
    turn := 1, players := [{ id := 1, library := [{ id := 10 }, { id := 11 }], hand := [{ id := 12 }] }] }

def c5M : Manager :=
  { userId := 1, gameState := some c5Gs, connected := true, connectedPeers := 2 }

def c5Req : ActionReq := { id := some 77, payload := .drawCard 1 5 }

/-- C8 counterexample state: card 7 is on player 1's battlefield but carries
no counters at all. -/
def c8NoCounters : GameState :=
  { id := 0, version := 1, timestamp := 0, activePlayer := 1, phase := "main1",
    turn := 1, players := [{ id := 1, battlefield := [{ id := 7 }] }] }

/-- C8 witness state: card 7 carries three counters of type 5. -/
def c8WithCounters : GameState :=
  { id := 0, version := 1, timestamp := 0, activePlayer := 1, phase := "main1",
    turn := 1, players := [{ id := 1, battlefield := [{ id := 7, counters := [(5, 3)] }] }] }

/-- C10 witness scenario: the log holds action 41 (applied at time 1) and a
draw-card action 43 that failed validation (applied-at time 2, library too
short); the history holds the pre-41 snapshot at time 1 and the pre-43-push
snapshot at time 2, so rolling back action 41 fires. -/
def c10S0 : GameState :=
  { id := 0, version := 1, timestamp := 0, activePlayer := 1, phase := "main1",
    turn := 1, players := [{ id := 1 }] }

def c10S1 : GameState :=
  { c10S0 with version := 2, timestamp := 1, players := [{ id := 1, life := 25 }] }

def c10A41 : Action := { id := 41, payload := .updateLife 1 5, sourcePlayer := 1, timestamp := 1 }

def c10A43 : Action := { id := 43, payload := .drawCard 1 5, sourcePlayer := 1, timestamp := 2 }

def c10M : Manager :=
  { userId := 1, gameState := some c10S1,
    actionLog := [⟨c10A41, 1⟩, ⟨c10A43, 2⟩],
    stateHistory := [⟨c10S0, 1⟩, ⟨c10S1, 2⟩],
    connected := false, connectedPeers := 2 }

/-- C9 witness roster: two players, the first with a one-card deck. -/
def c9Roster : List RosterEntry :=
  [{ id := 4, name := "a", deck := some [{ id := 30 }] }, { id := 5, name := "b" }]

/-- C6 witness: local state at version 3. -/
def c6M : Manager :=
  { userId := 1, gameState := some { c4Gs with version := 3 }, connected := false }

def c6Newer : GameState := { c4Gs with version := 4, turn := 9 }

def c6Older : GameState := { c4Gs with version := 3, turn := 9 }

/-- C3 witness scenario: action 42 pending with a self-approval on a 3-peer
mesh; a rejecting vote from peer 8 reaches the threshold with rejections
equal to approvals. -/
def c3M : Manager :=
  { userId := 1, gameState := some c2Gs,
    pendingActions := [(42, { action := c2Act, votes := [(1, true)], timestamp := 2 })],
    actionLog := [⟨c2Act, 1⟩],
    stateHistory := [⟨c4Gs, 1⟩],
    connected := false, connectedPeers := 2 }

/-- The intermediate manager of `addVoteForAction`: the pending entry `e`
of `actionId` with its vote map replaced by `votes`
(`pendingAction.votes.set(peerId, approved)` mutates the entry in place). -/
def withVotes (m : Manager) (actionId : Nat) (e : PendingEntry)
    (votes : List (Nat × Bool)) : Manager :=
  { m with pendingActions := mapSet actionId { e with votes := votes } m.pendingActions }

/-- C7 witness action: draw one card (succeeds on `c5Gs`). -/
def c7Act : Action := { id := 9, payload := .drawCard 1 1, sourcePlayer := 1, timestamp := 4 }

/-- C9 witness manager: fresh manager for user 4. -/
def c9Start : Manager := { userId := 4 }

/-! ### Association-list lemmas -/

theorem mapGet_mapSet_self {β : Type} (k : Nat) (v : β) (l : List (Nat × β)) :
    mapGet k (mapSet k v l) = some v := by
  induction l with
  | nil => simp [mapSet, mapGet]
  | cons p rest ih =>
    obtain ⟨k', v'⟩ := p
    by_cases h : k' = k <;> simp [mapSet, mapGet, h, ih]

theorem mapGet_mapDelete_self {β : Type} (k : Nat) (l : List (Nat × β)) :
    mapGet k (mapDelete k l) = none := by
  induction l with
  | nil => rfl
  | cons p rest ih =>
    obtain ⟨k', v'⟩ := p
    by_cases h : k' = k
    · subst h
      simpa [mapDelete, List.filter_cons] using ih
    · simpa [mapDelete, List.filter_cons, h, mapGet] using ih

theorem mapGet_filter_some {β : Type} (k : Nat) (v : β) (pred : Nat × β → Bool)
    (l : List (Nat × β)) (h : mapGet k l = some v) (hp : pred (k, v) = true) :
    mapGet k (l.filter pred) = some v := by
  induction l with
  | nil => simp [mapGet] at h
  | cons p rest ih =>
    obtain ⟨k', v'⟩ := p
    by_cases hk : k' = k
    · subst hk
      simp [mapGet] at h
      subst h
      simp [List.filter, hp, mapGet]
    · simp [mapGet, hk] at h
      by_cases hpr : pred (k', v') = true <;>
        simp [List.filter, hpr, mapGet, hk, ih h]

theorem mapGet_filter_none {β : Type} (k : Nat) (pred : Nat × β → Bool)
    (l : List (Nat × β)) (h : mapGet k l = none) :
    mapGet k (l.filter pred) = none := by
  induction l with
  | nil => rfl
  | cons p rest ih =>
    obtain ⟨k', v'⟩ := p
    by_cases hk : k' = k
    · simp [mapGet, hk] at h
    · simp [mapGet, hk] at h
      by_cases hpr : pred (k', v') = true <;>
        simp [List.filter, hpr, mapGet, hk, ih h]

/-! ### Frame lemmas: fields each operation leaves untouched -/

theorem setGameState_gameState (env : Env) (m : Manager) (s : GameState) :
    (setGameState env m s).1.gameState = some s := rfl

theorem setGameState_pendingActions (env : Env) (m : Manager) (s : GameState) :
    (setGameState env m s).1.pendingActions = m.pendingActions := rfl

theorem setGameState_actionLog (env : Env) (m : Manager) (s : GameState) :
    (setGameState env m s).1.actionLog = m.actionLog := rfl

theorem processAction_pendingActions (env : Env) (m : Manager) (a : Action) :
    (processAction env m a).1.pendingActions = m.pendingActions := by
  unfold processAction
  cases hgs : m.gameState with
  | none => rfl
  | some gs =>
    cases hp : processActionPure env gs a <;>
      simp [hp, setGameState_pendingActions]

theorem processAction_actionLog (env : Env) (m : Manager) (a : Action) :
    (processAction env m a).1.actionLog = m.actionLog := by
  unfold processAction
  cases hgs : m.gameState with
  | none => rfl
  | some gs =>
    cases hp : processActionPure env gs a <;>
      simp [hp, setGameState_actionLog]

theorem replayFrom_actionLog (env : Env) :
    ∀ (es : List LogEntry) (m : Manager), (replayFrom env m es).1.actionLog = m.actionLog := by
  intro es
  induction es with
  | nil => intro m; rfl
  | cons e es ih =>
    intro m
    show (replayFrom env (processAction env m e.action).1 es).1.actionLog = m.actionLog
    rw [ih, processAction_actionLog]

theorem replayFrom_pendingActions (env : Env) :
    ∀ (es : List LogEntry) (m : Manager),
      (replayFrom env m es).1.pendingActions = m.pendingActions := by
  intro es
  induction es with
  | nil => intro m; rfl
  | cons e es ih =>
    intro m
    show (replayFrom env (processAction env m e.action).1 es).1.pendingActions = m.pendingActions
    rw [ih, processAction_pendingActions]

/-- The replay loop computes, in the manager's current-state slot, exactly
the state-level deterministic replay of the remaining log entries. -/
theorem replayFrom_gameState (env : Env) :
    ∀ (es : List LogEntry) (m : Manager) (s : GameState), m.gameState = some s →
      (replayFrom env m es).1.gameState = some (replay env s es) := by
  intro es
  induction es with
  | nil => intro m s h; simpa [replay] using h
  | cons e es ih =>
    intro m s h
    show (replayFrom env (processAction env m e.action).1 es).1.gameState
      = some (replay env s (e :: es))
    have hrep : replay env s (e :: es)
        = replay env ((processActionPure env s e.action).getD s) es := rfl
    rw [hrep]
    cases hp : processActionPure env s e.action with
    | none =>
      have hm : (processAction env m e.action).1 = m := by
        unfold processAction
        rw [h]
        simp [hp]
      rw [hm]
      exact ih m s h
    | some s' =>
      have hm : (processAction env m e.action).1.gameState = some s' := by
        unfold processAction
        rw [h]
        simp [hp, setGameState_gameState]
      exact ih _ s' hm

theorem rollbackAction_pendingActions (env : Env) (m : Manager) (actionId : Nat) :
    (rollbackAction env m actionId).1.pendingActions = m.pendingActions := by
  unfold rollbackAction
  split
  · rfl
  · dsimp only
    split
    · rfl
    · rfl
    · split
      · rfl
      · simp only [replayFrom_pendingActions, setGameState_pendingActions]

/-! ### `find?` / `modifyFirst` correspondence -/

theorem modifyFirst_none_of_find?_none {α : Type} (p : α → Bool) (f : α → Option α)
    (l : List α) (h : l.find? p = none) : modifyFirst p f l = none := by
  induction l with
  | nil => rfl
  | cons x xs ih =>
    by_cases hx : p x = true
    · rw [List.find?_cons_of_pos _ hx] at h
      cases h
    · rw [List.find?_cons_of_neg _ hx] at h
      simp [modifyFirst, hx, ih h]

theorem modifyFirst_none_of_f_none {α : Type} (p : α → Bool) (f : α → Option α)
    (l : List α) (x : α) (h : l.find? p = some x) (hf : f x = none) :
    modifyFirst p f l = none := by
  induction l with
  | nil => cases h
  | cons a xs ih =>
    by_cases ha : p a = true
    · rw [List.find?_cons_of_pos _ ha] at h
      injection h with h
      subst h
      simp [modifyFirst, ha, hf]
    · rw [List.find?_cons_of_neg _ ha] at h
      simp [modifyFirst, ha, ih h]

theorem modifyFirst_some_of_f_some {α : Type} (p : α → Bool) (f : α → Option α)
    (l : List α) (x y : α) (h : l.find? p = some x) (hf : f x = some y) :
    ∃ l', modifyFirst p f l = some l' ∧ (p y = true → l'.find? p = some y) := by
  induction l with
  | nil => cases h
  | cons a xs ih =>
    by_cases ha : p a = true
    · rw [List.find?_cons_of_pos _ ha] at h
      injection h with h
      subst h
      refine ⟨y :: xs, by simp [modifyFirst, ha, hf], ?_⟩
      intro hy
      exact List.find?_cons_of_pos _ hy
    · rw [List.find?_cons_of_neg _ ha] at h
      obtain ⟨l', h1, h2⟩ := ih h
      refine ⟨a :: l', by simp [modifyFirst, ha, h1], ?_⟩
      intro hy
      rw [List.find?_cons_of_neg _ ha, h2 hy]

/-- A successful `modifyPlayer` changes only the `players` field. -/
theorem modifyPlayer_eq (st : GameState) (pid : Nat) (f : PlayerState → Option PlayerState)
    (st' : GameState) (h : modifyPlayer st pid f = some st') :
    ∃ ps, st' = { st with players := ps } := by
  unfold modifyPlayer at h
  cases hm : modifyFirst (fun q => q.id == pid) f st.players with
  | none => rw [hm] at h; simp at h
  | some ps =>
    rw [hm] at h
    simp at h
    exact ⟨ps, h.symm⟩

/-- No handler of the dispatch table touches the `version` field: the
version of a successfully processed state is exactly the bumped version set
by `processAction` before dispatch. -/
theorem dispatchAction_version (env : Env) (st : GameState) (a : Action) (st' : GameState)
    (h : dispatchAction env st a = some st') : st'.version = st.version := by
  obtain ⟨aid, pl, sp, ts⟩ := a
  cases pl <;> dsimp only [dispatchAction] at h
  case drawCard pid n =>
    unfold processDrawCard at h
    obtain ⟨ps, rfl⟩ := modifyPlayer_eq _ _ _ _ h
    rfl
  case playCard pid cid tz =>
    unfold processPlayCard at h
    obtain ⟨ps, rfl⟩ := modifyPlayer_eq _ _ _ _ h
    rfl
  case moveCard pid cid sz tz =>
    unfold processMoveCard at h
    obtain ⟨ps, rfl⟩ := modifyPlayer_eq _ _ _ _ h
    rfl
  case updateLife pid d =>
    unfold processUpdateLife at h
    obtain ⟨ps, rfl⟩ := modifyPlayer_eq _ _ _ _ h
    rfl
  case changePhase ph =>
    unfold processChangePhase at h
    split at h
    · injection h with h
      subst h
      rfl
    · cases h
  case nextTurn =>
    unfold processNextTurn at h
    split at h
    · cases h
    · dsimp only at h
      split at h
      · cases h
      · injection h with h
        subst h
        rfl
  case addCounter pid cid ct n =>
    unfold processAddCounter at h
    obtain ⟨ps, rfl⟩ := modifyPlayer_eq _ _ _ _ h
    rfl
  case removeCounter pid cid ct n =>
    unfold processRemoveCounter at h
    obtain ⟨ps, rfl⟩ := modifyPlayer_eq _ _ _ _ h
    rfl
  case createToken pid td =>
    unfold processCreateToken at h
    obtain ⟨ps, rfl⟩ := modifyPlayer_eq _ _ _ _ h
    rfl
  case shuffleLibrary pid =>
    unfold processShuffleLibrary at h
    obtain ⟨ps, rfl⟩ := modifyPlayer_eq _ _ _ _ h
    rfl
  case moveToLibrary pid cid sz b =>
    unfold processMoveToLibrary at h
    obtain ⟨ps, rfl⟩ := modifyPlayer_eq _ _ _ _ h
    rfl
  case unknown t => cases h

/-- The success flag of manager-level `processAction` mirrors the pure
processor. -/
theorem processAction_success_iff (env : Env) (m : Manager) (a : Action) (gs : GameState)
    (h : m.gameState = some gs) :
    (processAction env m a).2.2 = (processActionPure env gs a).isSome := by
  unfold processAction
  rw [h]
  cases hp : processActionPure env gs a <;> simp [hp]

/-- A failing pure processing leaves the manager-level `processAction`
entirely inert. -/
theorem processAction_eq_of_none (env : Env) (m : Manager) (a : Action) (gs : GameState)
    (h : m.gameState = some gs) (hp : processActionPure env gs a = none) :
    processAction env m a = (m, [], false) := by
  unfold processAction
  rw [h]
  simp [hp]

/-- A player lookup that fails makes every `modifyPlayer` fail. -/
theorem modifyPlayer_none_of_find?_none (st : GameState) (pid : Nat)
    (f : PlayerState → Option PlayerState)
    (h : st.players.find? (fun p => p.id == pid) = none) :
    modifyPlayer st pid f = none := by
  unfold modifyPlayer
  rw [modifyFirst_none_of_find?_none _ _ _ h]
  rfl

/-- A failing per-player mutation makes `modifyPlayer` fail. -/
theorem modifyPlayer_none_of_f_none (st : GameState) (pid : Nat)
    (f : PlayerState → Option PlayerState) (pl : PlayerState)
    (h : st.players.find? (fun p => p.id == pid) = some pl) (hf : f pl = none) :
    modifyPlayer st pid f = none := by
  unfold modifyPlayer
  rw [modifyFirst_none_of_f_none _ _ _ pl h hf]
  rfl

/-- A successful per-player mutation that keeps the player's id makes
`modifyPlayer` succeed, and the mutated player is what a subsequent lookup
finds. -/
theorem modifyPlayer_find? (st : GameState) (pid : Nat)
    (f : PlayerState → Option PlayerState) (pl pl' : PlayerState)
    (h : st.players.find? (fun p => p.id == pid) = some pl) (hf : f pl = some pl')
    (hid : pl'.id = pl.id) :
    ∃ st', modifyPlayer st pid f = some st'
      ∧ st'.players.find? (fun p => p.id == pid) = some pl' := by
  have hp : ((fun p : PlayerState => p.id == pid) pl') = true := by
    have h0 := List.find?_some h
    simpa [hid] using h0
  obtain ⟨ps', h1, h2⟩ := modifyFirst_some_of_f_some _ f st.players pl pl' h hf
  refine ⟨{ st with players := ps' }, ?_, ?_⟩
  · unfold modifyPlayer
    rw [h1]
    rfl
  · exact h2 hp

/-- Registering a freshly proposed action (entry creation, self-vote, and
the immediate consensus check — which with a single approving vote can only
take the approve branch) never touches the action log. -/
theorem addPendingAction_actionLog (env : Env) (m : Manager) (a : Action) :
    (addPendingAction env m a).1.actionLog = m.actionLog := by
  unfold addPendingAction addVoteForAction
  dsimp only
  rw [mapGet_mapSet_self]
  dsimp only
  unfold checkActionConsensus
  rw [mapGet_mapSet_self]
  dsimp only
  by_cases hc : 2 * ((mapSet m.userId true ([] : List (Nat × Bool))).length)
      ≥ m.connectedPeers + 1
  · rw [if_pos hc]
    simp only [mapSet]
    rfl
  · rw [if_neg hc]
    rfl

/-! ### Claim theorems -/

/-- C1: evaluation of the coordinator at a concrete failing input. On a
3-peer mesh, game initialized at time 0, an `update-life +5` action (id 42)
is applied locally at time 1 and a rejecting vote from peer 7 arrives at
time 2. The two recorded votes (self-approve, peer-reject) reach consensus
with rejections equal to approvals, so the coordinator takes its rollback
path — yet the resulting state still carries the rejected action's mutation
(life 25, version 2) instead of reverting to the pre-action state (life 20,
version 1): `rollbackAction` finds no history entry with timestamp strictly
greater than the action's `appliedAt` (the pre-action snapshot was pushed at
that same clock value), computes a negative `prevStateIndex`, and silently
does nothing; the action is not even removed from the log. -/
theorem c1_rejected_action_not_rolled_back :
    (c1AfterInit.gameState.map fun s => (s.version, s.players.map (·.life)))
      = some (1, [20, 20, 20])
    ∧ (c1AfterApply.gameState.map fun s => (s.version, s.players.map (·.life)))
      = some (2, [25, 20, 20])
    ∧ (mapGet 42 c1AfterApply.pendingActions).isSome = true
    ∧ (c1Final.gameState.map fun s => (s.version, s.players.map (·.life)))
      = some (2, [25, 20, 20])
    ∧ mapGet 42 c1Final.pendingActions = none
    ∧ c1Final.actionLog.length = 1 := by
  decide

/-- C4 (counterexample): two runs of the Action Processor on the same state
and action — an `update-life`, not even one of the randomness-consuming
types — give different results when the clock readings differ, because the
processor stamps `Date.now()` into the produced state. -/
theorem c4_counterexample :
    processActionPure ⟨1, 0, fun _ => 0⟩ c4Gs c4Act
      ≠ processActionPure ⟨2, 0, fun _ => 0⟩ c4Gs c4Act := by
  decide

/-- C4 (amended): the Action Processor is deterministic only relative to
its environment: for every state and action whose type is not
`create-token` (which mints a `uuidv4()` id) or `shuffle-library` (which
draws from `Math.random()`), two runs observing the same clock reading
produce identical results — the random source and id generator may differ
arbitrarily. -/
theorem c4_deterministic_modulo_env (e1 e2 : Env) (gs : GameState) (a : Action)
    (hnow : e1.now = e2.now) (hdet : usesEnvRandomness a.payload = false) :
    processActionPure e1 gs a = processActionPure e2 gs a := by
  unfold processActionPure
  rw [hnow]
  obtain ⟨aid, pl, sp, ts⟩ := a
  cases pl <;> simp_all [usesEnvRandomness, dispatchAction]

/-- C4 witness: two environments with equal clock but different id
generators and random sources produce the same result on a non-random
action. -/
theorem c4_deterministic_modulo_env_witness :
    (⟨5, 1, fun _ => 0⟩ : Env).now = (⟨5, 77, fun n => n + 3⟩ : Env).now
    ∧ usesEnvRandomness c4Act.payload = false
    ∧ processActionPure ⟨5, 1, fun _ => 0⟩ c4Gs c4Act
        = processActionPure ⟨5, 77, fun n => n + 3⟩ c4Gs c4Act :=
  ⟨rfl, by decide, c4_deterministic_modulo_env _ _ _ _ rfl (by decide)⟩

/-- C6: a full state received from a peer replaces an existing local state
exactly when its version is strictly greater; on an equal-or-lower version
the manager is left entirely unchanged and nothing is broadcast. -/
theorem c6_version_gate (env : Env) (m : Manager) (s gs : GameState)
    (h : m.gameState = some gs) :
    (s.version > gs.version → (handleGameStateUpdate env m s).1.gameState = some s)
    ∧ (s.version ≤ gs.version → handleGameStateUpdate env m s = (m, [])) := by
  unfold handleGameStateUpdate
  rw [h]
  constructor
  · intro hv
    simp [hv, setGameState_gameState]
  · intro hv
    have hng : ¬ s.version > gs.version := by omega
    simp [hng]

/-- C6 witness: with a local state at version 3, a version-4 state is
accepted and a version-3 state is ignored. -/
theorem c6_version_gate_witness :
    c6M.gameState = some { c4Gs with version := 3 }
    ∧ c6Newer.version > 3
    ∧ c6Older.version ≤ 3
    ∧ (handleGameStateUpdate (mkEnv 9) c6M c6Newer).1.gameState = some c6Newer
    ∧ handleGameStateUpdate (mkEnv 9) c6M c6Older = (c6M, []) :=
  ⟨rfl, by decide, by decide,
   (c6_version_gate (mkEnv 9) c6M c6Newer _ rfl).1 (by decide),
   (c6_version_gate (mkEnv 9) c6M c6Older _ rfl).2 (by decide)⟩

/-- C7: every accepted action increments the state version by exactly 1 —
`processAction` bumps `version` once before dispatch and no handler touches
it, so an accepted action can neither leave the version unchanged nor
increase it by more than 1. -/
theorem c7_version_monotonic (env : Env) (m : Manager) (a : Action) (gs : GameState)
    (hgs : m.gameState = some gs) (hok : (processAction env m a).2.2 = true) :
    ∃ st, (processAction env m a).1.gameState = some st ∧ st.version = gs.version + 1 := by
  unfold processAction at hok ⊢
  rw [hgs] at hok ⊢
  cases hp : processActionPure env gs a with
  | none => simp [hp] at hok
  | some st =>
    refine ⟨st, ?_, ?_⟩
    · simp [hp, setGameState_gameState]
    · have hp' : dispatchAction env
          { gs with version := gs.version + 1, timestamp := env.now } a = some st := hp
      have h2 := dispatchAction_version _ _ _ _ hp'
      exact h2

/-- C7 witness: a successful one-card draw takes the version from 3 to 4. -/
theorem c7_version_monotonic_witness :
    c5M.gameState = some c5Gs
    ∧ (processAction (mkEnv 4) c5M c7Act).2.2 = true
    ∧ ∃ st, (processAction (mkEnv 4) c5M c7Act).1.gameState = some st
        ∧ st.version = c5Gs.version + 1 :=
  ⟨rfl, by decide, c7_version_monotonic (mkEnv 4) c5M c7Act c5Gs rfl (by decide)⟩

/-- C5: an action that fails local validation (the processor returns
failure) makes `applyAction` return `false`, leaves the game state, the
history and the pending set completely untouched, and broadcasts no message
of any kind for that action. -/
theorem c5_local_validation_failure (env : Env) (m : Manager) (req : ActionReq)
    (gs : GameState) (hgs : m.gameState = some gs)
    (hfail : (applyAction env m req).2.2 = false) :
    (applyAction env m req).1.gameState = some gs
    ∧ (applyAction env m req).2.1 = []
    ∧ (applyAction env m req).1.stateHistory = m.stateHistory
    ∧ (applyAction env m req).1.pendingActions = m.pendingActions := by
  obtain ⟨uid, gso, pend, hist, log, conn, cp⟩ := m
  dsimp only at hgs
  subst hgs
  unfold applyAction processAction at hfail ⊢
  dsimp only at hfail ⊢
  cases hp : processActionPure env gs (resolveAction env uid req) with
  | some st => simp [hp] at hfail
  | none => simp [hp]

/-- C5 witness: drawing 5 cards from a 2-card library fails, leaves the
state (hand and library included) untouched and broadcasts nothing. -/
theorem c5_local_validation_failure_witness :
    c5M.gameState = some c5Gs
    ∧ (applyAction (mkEnv 4) c5M c5Req).2.2 = false
    ∧ (applyAction (mkEnv 4) c5M c5Req).1.gameState = some c5Gs
    ∧ (applyAction (mkEnv 4) c5M c5Req).2.1 = []
    ∧ (applyAction (mkEnv 4) c5M c5Req).1.stateHistory = c5M.stateHistory
    ∧ (applyAction (mkEnv 4) c5M c5Req).1.pendingActions = c5M.pendingActions := by
  have h := c5_local_validation_failure (mkEnv 4) c5M c5Req c5Gs rfl (by decide)
  exact ⟨rfl, by decide, h.1, h.2.1, h.2.2.1, h.2.2.2⟩

/-- C9: on a non-empty roster, `initializeGameState` produces a state with
version 1, turn 1, phase `main1`, the first roster entry active, and for
every roster entry a player with 20 life, the supplied deck (or an empty
list) as library, and empty hand, battlefield, graveyard and exile. -/
theorem c9_initialize (env : Env) (m : Manager) (r : RosterEntry) (rest : List RosterEntry)
    (m' : Manager) (msgs : List Msg) (st : GameState)
    (h : initializeGameState env m (r :: rest) = some (m', msgs, st)) :
    st.version = 1 ∧ st.turn = 1 ∧ st.phase = "main1" ∧ st.activePlayer = r.id
    ∧ m'.gameState = some st
    ∧ List.Forall₂ (fun (q : RosterEntry) (p : PlayerState) =>
        p.id = q.id ∧ p.life = 20 ∧ p.library = q.deck.getD []
        ∧ p.hand = [] ∧ p.battlefield = [] ∧ p.graveyard = [] ∧ p.exile = [])
        (r :: rest) st.players := by
  have hf : ∀ (l : List RosterEntry),
      List.Forall₂ (fun (q : RosterEntry) (p : PlayerState) =>
        p.id = q.id ∧ p.life = 20 ∧ p.library = q.deck.getD []
        ∧ p.hand = [] ∧ p.battlefield = [] ∧ p.graveyard = [] ∧ p.exile = [])
        l (l.map (fun p =>
          { id := p.id, name := p.name, life := 20, library := p.deck.getD [],
            hand := [], battlefield := [], graveyard := [], exile := [],
            commander := p.commander, isCurrentPlayer := p.id == m.userId })) := by
    intro l
    induction l with
    | nil => exact List.Forall₂.nil
    | cons x xs ih => exact List.Forall₂.cons ⟨rfl, rfl, rfl, rfl, rfl, rfl, rfl⟩ ih
  unfold initializeGameState at h
  dsimp only at h
  injection h with h
  obtain ⟨h1, h2⟩ := Prod.mk.inj h
  obtain ⟨h2, h3⟩ := Prod.mk.inj h2
  subst h3
  subst h1
  exact ⟨rfl, rfl, rfl, rfl, setGameState_gameState env m _, hf (r :: rest)⟩

/-- C9 witness: initializing for user 4 with a two-entry roster. -/
theorem c9_initialize_witness :
    ∃ m' msgs st, initializeGameState (mkEnv 0) c9Start c9Roster = some (m', msgs, st)
      ∧ st.version = 1 ∧ st.turn = 1 ∧ st.phase = "main1" ∧ st.activePlayer = 4
      ∧ List.Forall₂ (fun (q : RosterEntry) (p : PlayerState) =>
          p.id = q.id ∧ p.life = 20 ∧ p.library = q.deck.getD []
          ∧ p.hand = [] ∧ p.battlefield = [] ∧ p.graveyard = [] ∧ p.exile = [])
          c9Roster st.players := by
  cases h : initializeGameState (mkEnv 0) c9Start c9Roster with
  | none => exact absurd h (by decide)
  | some t =>
    obtain ⟨m', msgs, st⟩ := t
    obtain ⟨h1, h2, h3, h4, _, h6⟩ := c9_initialize (mkEnv 0) c9Start _ _ m' msgs st h
    exact ⟨m', msgs, st, rfl, h1, h2, h3, h4, h6⟩

/-- C2 (counterexample): action 42 was applied and has already been
committed (it is no longer pending); receiving the very same action a
second time from a peer re-applies its mutation — life goes from 25 to 30
and the version is bumped again — contradicting the claim that a duplicate
of an already-committed action id is a no-op on the game state. -/
theorem c2_counterexample :
    mapGet c2Act.id c2Committed.pendingActions = none
    ∧ ((handlePeerAction (mkEnv 3) c2Committed c2Act 9).1.gameState.map
        (fun s => (s.version, s.players.map (·.life)))) = some (3, [30])
    ∧ (handlePeerAction (mkEnv 3) c2Committed c2Act 9).1.gameState
        ≠ c2Committed.gameState := by
  decide

/-- C2 (amended): only while the action id is still in the pending set is a
duplicate receipt free of reprocessing — it is treated purely as an implicit
approving vote from that peer (after which consensus evaluation proceeds on
the updated votes); in particular, when the updated votes do not yet reach
the consensus threshold and the entry is not TTL-expired, the game state is
untouched, nothing is broadcast, and the entry simply carries the new vote.
Once the id has left the pending set (committed or expired), a duplicate
receipt is processed like a fresh action and re-applies the mutation. -/
theorem c2_pending_duplicate_noop (env : Env) (m : Manager) (a : Action) (fromPeerId : Nat)
    (e : PendingEntry) (he : mapGet a.id m.pendingActions = some e) :
    handlePeerAction env m a fromPeerId = addVoteForAction env m a.id fromPeerId true
    ∧ (env.now - e.timestamp ≤ 10000 →
        2 * (mapSet fromPeerId true e.votes).length < m.connectedPeers + 1 →
        (handlePeerAction env m a fromPeerId).1.gameState = m.gameState
        ∧ (handlePeerAction env m a fromPeerId).2 = []
        ∧ mapGet a.id (handlePeerAction env m a fromPeerId).1.pendingActions
            = some { e with votes := mapSet fromPeerId true e.votes }) := by
  have h1 : handlePeerAction env m a fromPeerId
      = addVoteForAction env m a.id fromPeerId true := by
    unfold handlePeerAction
    simp [he]
  refine ⟨h1, ?_⟩
  intro httl hno
  rw [h1]
  unfold addVoteForAction
  rw [he]
  dsimp only
  unfold checkActionConsensus
  rw [mapGet_mapSet_self]
  dsimp only
  have hcond : ¬ 2 * (mapSet fromPeerId true e.votes).length ≥ m.connectedPeers + 1 := by
    omega
  rw [if_neg hcond]
  refine ⟨rfl, rfl, ?_⟩
  unfold cleanupPendingActions
  dsimp only
  apply mapGet_filter_some
  · exact mapGet_mapSet_self _ _ _
  · simpa using httl

/-- C2 witness: on a 5-player mesh a pending duplicate receipt records the
approval and changes nothing else. -/
theorem c2_pending_duplicate_noop_witness :
    mapGet c2Act.id c2Pending.pendingActions
      = some { action := c2Act, votes := [(1, true)], timestamp := 3 }
    ∧ (mkEnv 3).now - 3 ≤ 10000
    ∧ 2 * (mapSet 9 true [(1, true)]).length < c2Pending.connectedPeers + 1
    ∧ (handlePeerAction (mkEnv 3) c2Pending c2Act 9).1.gameState = c2Pending.gameState
    ∧ (handlePeerAction (mkEnv 3) c2Pending c2Act 9).2 = []
    ∧ mapGet c2Act.id (handlePeerAction (mkEnv 3) c2Pending c2Act 9).1.pendingActions
        = some { action := c2Act, votes := mapSet 9 true [(1, true)], timestamp := 3 } := by
  have h := c2_pending_duplicate_noop (mkEnv 3) c2Pending c2Act 9
      { action := c2Act, votes := [(1, true)], timestamp := 3 } rfl
  obtain ⟨-, h2⟩ := h
  obtain ⟨ha, hb, hc⟩ := h2 (by decide) (by decide)
  exact ⟨rfl, by decide, by decide, ha, hb, hc⟩

/-- C3: consensus is evaluated on each recorded vote. After
`addVoteForAction` records a vote for a pending action, with
`totalVotes` the number of recorded votes, `approved` the approving ones
among them, and threshold `connectedPeers + 1`, consensus is reached
exactly when `totalVotes ≥ threshold * 0.5` (integer form
`2 * totalVotes ≥ connectedPeers + 1`). If reached with
`approved > rejected` the entry is dropped from the pending set and the
state mutation is kept; if reached with `rejected ≥ approved` the action is
rolled back via `rollbackAction` (on the manager carrying the recorded
vote) and the entry dropped; if not reached, nothing changes except the
recorded vote (the entry surviving the TTL sweep when not expired). -/
theorem c3_consensus_tally (env : Env) (m : Manager) (actionId peerId : Nat)
    (approved : Bool) (e : PendingEntry)
    (he : mapGet actionId m.pendingActions = some e) :
    (2 * (mapSet peerId approved e.votes).length ≥ m.connectedPeers + 1 →
      mapGet actionId (addVoteForAction env m actionId peerId approved).1.pendingActions = none
      ∧ (((mapSet peerId approved e.votes).filter (fun v => v.2)).length
            > (mapSet peerId approved e.votes).length
              - ((mapSet peerId approved e.votes).filter (fun v => v.2)).length →
          (addVoteForAction env m actionId peerId approved).1.gameState = m.gameState
          ∧ (addVoteForAction env m actionId peerId approved).1.actionLog = m.actionLog
          ∧ (addVoteForAction env m actionId peerId approved).2 = [])
      ∧ (¬ ((mapSet peerId approved e.votes).filter (fun v => v.2)).length
            > (mapSet peerId approved e.votes).length
              - ((mapSet peerId approved e.votes).filter (fun v => v.2)).length →
          (addVoteForAction env m actionId peerId approved).1.gameState
            = (rollbackAction env
                (withVotes m actionId e (mapSet peerId approved e.votes)) actionId).1.gameState
          ∧ (addVoteForAction env m actionId peerId approved).1.actionLog
            = (rollbackAction env
                (withVotes m actionId e (mapSet peerId approved e.votes)) actionId).1.actionLog
          ∧ (addVoteForAction env m actionId peerId approved).2
            = (rollbackAction env
                (withVotes m actionId e (mapSet peerId approved e.votes)) actionId).2))
    ∧ (¬ 2 * (mapSet peerId approved e.votes).length ≥ m.connectedPeers + 1 →
        (addVoteForAction env m actionId peerId approved).1.gameState = m.gameState
        ∧ (addVoteForAction env m actionId peerId approved).1.actionLog = m.actionLog
        ∧ (addVoteForAction env m actionId peerId approved).2 = []
        ∧ (env.now - e.timestamp ≤ 10000 →
            mapGet actionId (addVoteForAction env m actionId peerId approved).1.pendingActions
              = some { e with votes := mapSet peerId approved e.votes })) := by
  have hr : addVoteForAction env m actionId peerId approved
      = checkActionConsensus env
          (withVotes m actionId e (mapSet peerId approved e.votes)) actionId := by
    unfold addVoteForAction withVotes
    rw [he]
  rw [hr]
  unfold checkActionConsensus withVotes
  dsimp only
  rw [mapGet_mapSet_self]
  dsimp only
  constructor
  · intro hcons
    rw [if_pos hcons]
    by_cases happr : ((mapSet peerId approved e.votes).filter (fun v => v.2)).length
        > (mapSet peerId approved e.votes).length
          - ((mapSet peerId approved e.votes).filter (fun v => v.2)).length
    · rw [if_pos happr]
      refine ⟨?_, fun _ => ⟨rfl, rfl, rfl⟩, fun hc => absurd happr hc⟩
      unfold cleanupPendingActions
      dsimp only
      exact mapGet_filter_none _ _ _ (mapGet_mapDelete_self _ _)
    · rw [if_neg happr]
      refine ⟨?_, fun hc => absurd hc happr, fun _ => ⟨rfl, rfl, rfl⟩⟩
      unfold cleanupPendingActions
      dsimp only
      exact mapGet_filter_none _ _ _ (mapGet_mapDelete_self _ _)
  · intro hno
    rw [if_neg hno]
    refine ⟨rfl, rfl, rfl, ?_⟩
    intro httl
    unfold cleanupPendingActions
    dsimp only
    exact mapGet_filter_some _ _ _ _ (mapGet_mapSet_self _ _ _) (by simpa using httl)

/-- C3 witness: with a self-approval recorded and a rejecting vote from
peer 8 arriving on a 3-peer mesh, the threshold is met with rejections
equal to approvals: the entry leaves the pending set and the result is the
rollback path's outcome. -/
theorem c3_consensus_tally_witness :
    mapGet 42 c3M.pendingActions
      = some { action := c2Act, votes := [(1, true)], timestamp := 2 }
    ∧ 2 * (mapSet 8 false [(1, true)]).length ≥ c3M.connectedPeers + 1
    ∧ ¬ ((mapSet 8 false [(1, true)]).filter (fun v => v.2)).length
        > (mapSet 8 false [(1, true)]).length
          - ((mapSet 8 false [(1, true)]).filter (fun v => v.2)).length
    ∧ mapGet 42 (addVoteForAction (mkEnv 5) c3M 42 8 false).1.pendingActions = none
    ∧ (addVoteForAction (mkEnv 5) c3M 42 8 false).1.gameState
        = (rollbackAction (mkEnv 5)
            (withVotes c3M 42 { action := c2Act, votes := [(1, true)], timestamp := 2 }
              (mapSet 8 false [(1, true)])) 42).1.gameState := by
  have h := c3_consensus_tally (mkEnv 5) c3M 42 8 false
      { action := c2Act, votes := [(1, true)], timestamp := 2 } rfl
  obtain ⟨hc, -⟩ := h
  obtain ⟨h1, -, h3⟩ := hc (by decide)
  exact ⟨rfl, by decide, by decide, h1, (h3 (by decide)).1⟩

/-- C8 (counterexample): card 7 *is* on player 1's battlefield, yet
`remove-counter` fails — because the card carries no counters of the named
type, a failure condition beyond "card not on battlefield". -/
theorem c8_counterexample :
    cardOnBattlefield c8NoCounters 1 7 = some { id := 7 }
    ∧ processRemoveCounter c8NoCounters 1 7 5 1 = none := by
  decide

/-- C8 (amended): `remove-counter` fails exactly when the named card is not
on the named player's battlefield *or* the card's counter entry for the
named type is absent or zero; when the card is on the battlefield with a
non-zero counter value `v` of that type, it succeeds and the card's entry
becomes `max 0 (v - count)`. -/
theorem c8_remove_counter (st : GameState) (pid cid ct : Nat) (cnt : Int) :
    (cardOnBattlefield st pid cid = none → processRemoveCounter st pid cid ct cnt = none)
    ∧ (∀ card, cardOnBattlefield st pid cid = some card →
        ((mapGet ct card.counters).getD 0 = 0 →
          processRemoveCounter st pid cid ct cnt = none)
        ∧ (∀ v : Int, mapGet ct card.counters = some v → v ≠ 0 →
            ∃ st', processRemoveCounter st pid cid ct cnt = some st'
              ∧ cardOnBattlefield st' pid cid
                  = some { card with
                      counters := mapSet ct (max (0 : Int) (v - cnt)) card.counters })) := by
  have hdef : processRemoveCounter st pid cid ct cnt
      = modifyPlayer st pid (fun pl =>
          (modifyFirst (fun c => c.id == cid)
            (fun card =>
              match (mapGet ct card.counters : Option Int) with
              | none => none
              | some v =>
                if v = 0 then none
                else some { card with
                  counters := mapSet ct (max (0 : Int) (v - cnt)) card.counters })
            pl.battlefield).map (fun bf => { pl with battlefield := bf })) := rfl
  constructor
  · intro hnone
    rw [hdef]
    unfold cardOnBattlefield at hnone
    cases hpl : st.players.find? (fun p => p.id == pid) with
    | none => exact modifyPlayer_none_of_find?_none _ _ _ hpl
    | some pl =>
      rw [hpl] at hnone
      simp only [Option.bind] at hnone
      apply modifyPlayer_none_of_f_none _ _ _ pl hpl
      dsimp only
      rw [modifyFirst_none_of_find?_none _ _ _ hnone]
      rfl
  · intro card hcard
    unfold cardOnBattlefield at hcard
    cases hpl : st.players.find? (fun p => p.id == pid) with
    | none => rw [hpl] at hcard; cases hcard
    | some pl =>
      rw [hpl] at hcard
      simp only [Option.bind] at hcard
      constructor
      · intro hzero
        rw [hdef]
        apply modifyPlayer_none_of_f_none _ _ _ pl hpl
        dsimp only
        have hg : (fun card : Card =>
            match (mapGet ct card.counters : Option Int) with
            | none => none
            | some v =>
              if v = 0 then none
              else some { card with
                counters := mapSet ct (max (0 : Int) (v - cnt)) card.counters }) card
            = none := by
          cases hv : (mapGet ct card.counters : Option Int) with
          | none => simp [hv]
          | some v =>
            have hv0 : v = 0 := by simpa [hv] using hzero
            simp [hv, hv0]
        rw [modifyFirst_none_of_f_none _ _ _ card hcard hg]
        rfl
      · intro v hv hnz
        have hg : (fun card : Card =>
            match (mapGet ct card.counters : Option Int) with
            | none => none
            | some v =>
              if v = 0 then none
              else some { card with
                counters := mapSet ct (max (0 : Int) (v - cnt)) card.counters }) card
            = some { card with
                counters := mapSet ct (max (0 : Int) (v - cnt)) card.counters } := by
          simp [hv, hnz]
        have hcid : ((fun c : Card => c.id == cid)
            { card with counters := mapSet ct (max (0 : Int) (v - cnt)) card.counters })
            = true := by
          have h0 := List.find?_some hcard
          simpa using h0
        obtain ⟨bf', hb1, hb2⟩ := modifyFirst_some_of_f_some
          (fun c => c.id == cid)
          (fun card =>
            match (mapGet ct card.counters : Option Int) with
            | none => none
            | some v =>
              if v = 0 then none
              else some { card with
                counters := mapSet ct (max (0 : Int) (v - cnt)) card.counters })
          pl.battlefield card
          { card with counters := mapSet ct (max (0 : Int) (v - cnt)) card.counters }
          hcard hg
        have hf : (fun pl : PlayerState =>
            (modifyFirst (fun c => c.id == cid)
              (fun card =>
                match (mapGet ct card.counters : Option Int) with
                | none => none
                | some v =>
                  if v = 0 then none
                  else some { card with
                    counters := mapSet ct (max (0 : Int) (v - cnt)) card.counters })
              pl.battlefield).map (fun bf => { pl with battlefield := bf })) pl
            = some { pl with battlefield := bf' } := by
          dsimp only
          rw [hb1]
          rfl
        obtain ⟨st', h1, h2⟩ := modifyPlayer_find? st pid
          (fun pl : PlayerState =>
            (modifyFirst (fun c => c.id == cid)
              (fun card =>
                match (mapGet ct card.counters : Option Int) with
                | none => none
                | some v =>
                  if v = 0 then none
                  else some { card with
                    counters := mapSet ct (max (0 : Int) (v - cnt)) card.counters })
              pl.battlefield).map (fun bf => { pl with battlefield := bf }))
          pl { pl with battlefield := bf' } hpl hf rfl
        refine ⟨st', by rw [hdef]; exact h1, ?_⟩
        unfold cardOnBattlefield
        rw [h2]
        simp only [Option.bind]
        exact hb2 hcid

/-- C8 witness: removing 1 of 3 counters of type 5 from card 7 succeeds and
leaves `max 0 (3 - 1) = 2` counters on it. -/
theorem c8_remove_counter_witness :
    cardOnBattlefield c8WithCounters 1 7 = some { id := 7, counters := [(5, 3)] }
    ∧ mapGet 5 ({ id := 7, counters := [(5, 3)] } : Card).counters = some 3
    ∧ (3 : Int) ≠ 0
    ∧ ∃ st', processRemoveCounter c8WithCounters 1 7 5 1 = some st'
        ∧ cardOnBattlefield st' 1 7
            = some { id := 7, counters := mapSet 5 (max (0 : Int) (3 - 1)) [(5, 3)] } := by
  have h := (c8_remove_counter c8WithCounters 1 7 5 1).2
      { id := 7, counters := [(5, 3)] } rfl
  exact ⟨rfl, rfl, by decide, h.2 3 rfl (by decide)⟩

/-- C10: (a) `applyAction` appends every submitted action to the action log
before validation — the log gains the entry whether or not processing
succeeds — and (b) when rollback fires, the resulting log is the original
log with only the rejected entry spliced out (failed entries included), and
the resulting state is the deterministic state-level replay of every log
entry after the rejected one — each re-run through the Action Processor,
the failed ones leaving the state unchanged. -/
theorem c10_log_and_replay :
    (∀ (env : Env) (m : Manager) (req : ActionReq) (gs : GameState),
       m.gameState = some gs →
       (applyAction env m req).1.actionLog
         = m.actionLog ++ [⟨resolveAction env m.userId req, env.now⟩])
    ∧ (∀ (env : Env) (m : Manager) (actionId k i : Nat) (prev : HistEntry),
        m.actionLog.findIdx? (fun le => le.action.id == actionId) = some k →
        m.stateHistory.findIdx?
          (fun he => he.timestamp > ((m.actionLog.get? k).map (·.appliedAt)).getD 0)
          = some (i + 1) →
        m.stateHistory.get? i = some prev →
        (rollbackAction env m actionId).1.actionLog = m.actionLog.eraseIdx k
        ∧ (rollbackAction env m actionId).1.gameState
            = some (replay env prev.state ((m.actionLog.eraseIdx k).drop k))) := by
  constructor
  · intro env m req gs hgs
    obtain ⟨uid, gso, pend, hist, log, conn, cp⟩ := m
    dsimp only at hgs
    subst hgs
    unfold applyAction
    dsimp only
    cases hp : processActionPure env gs (resolveAction env uid req) with
    | none =>
      have hPA := processAction_eq_of_none env
        ⟨uid, some gs, pend, hist, log ++ [⟨resolveAction env uid req, env.now⟩], conn, cp⟩
        (resolveAction env uid req) gs rfl hp
      rw [hPA]
      rfl
    | some st =>
      have hS : (processAction env
          ⟨uid, some gs, pend, hist, log ++ [⟨resolveAction env uid req, env.now⟩], conn, cp⟩
          (resolveAction env uid req)).2.2 = true := by
        rw [processAction_success_iff env _ _ gs rfl, hp]
        rfl
      rw [if_pos hS]
      rw [addPendingAction_actionLog, processAction_actionLog]
  · intro env m actionId k i prev h1 h2 h3
    unfold rollbackAction
    rw [h1]
    dsimp only
    rw [h2]
    dsimp only
    rw [h3]
    dsimp only
    have hg2 : ({ (setGameState env m prev.state).1 with
        actionLog := (setGameState env m prev.state).1.actionLog.eraseIdx k } :
        Manager).gameState = some prev.state := setGameState_gameState env m prev.state
    constructor
    · rw [replayFrom_actionLog]
      rfl
    · rw [replayFrom_gameState env _ _ prev.state hg2]
      rfl

/-- C10 witness: a failing draw (5 cards from a 2-card library) is still
logged; rolling back action 41 erases only it from the log and replays the
logged failed draw 43 through the processor, which leaves the restored
snapshot unchanged. -/
theorem c10_log_and_replay_witness :
    (applyAction (mkEnv 4) c5M c5Req).2.2 = false
    ∧ (applyAction (mkEnv 4) c5M c5Req).1.actionLog
        = c5M.actionLog ++ [⟨resolveAction (mkEnv 4) c5M.userId c5Req, (mkEnv 4).now⟩]
    ∧ processActionPure (mkEnv 5) c10S0 c10A43 = none
    ∧ (rollbackAction (mkEnv 5) c10M 41).1.actionLog = c10M.actionLog.eraseIdx 0
    ∧ (rollbackAction (mkEnv 5) c10M 41).1.gameState
        = some (replay (mkEnv 5) c10S0 ((c10M.actionLog.eraseIdx 0).drop 0)) := by
  refine ⟨by decide, c10_log_and_replay.1 (mkEnv 4) c5M c5Req c5Gs rfl, by decide, ?_, ?_⟩
  · exact (c10_log_and_replay.2 (mkEnv 5) c10M 41 0 0 ⟨c10S0, 1⟩
      (by decide) (by decide) rfl).1
  · exact (c10_log_and_replay.2 (mkEnv 5) c10M 41 0 0 ⟨c10S0, 1⟩
      (by decide) (by decide) rfl).2

end MpMtg
